import Mathlib

/-!
# Lockfree.h — sequential semantics of `LockfreeStack` and `LockfreeQueue`

A shallow embedding of `src/include/Lockfree.h`.

* Pointers and counters are 32-bit words, represented as natural numbers;
  `0` is `nullptr`.  The source casts pointers to `uint32_t`, so an address and
  the word holding it are the same number.
* Node storage is a map from addresses to the live `Node<T>` allocated there.
  Reading through `nullptr`, or through an address that holds no live node, is a
  `fault`.
* The data members of each class are laid out in declaration order, one 32-bit
  word each.  `Cas2` reinterprets the address of a pointer member as the address
  of a 64-bit integer and puts the pointer in the low half of its operands
  (little-endian): it sees that member in the low word and the member declared
  right after it in the high word.
* The source has a Windows and a non-Windows branch for `Cas` and `Cas2`; the
  flag `windows` selects the branch.
* The retry loops carry a fuel argument; `timeout` means the loop was still
  running when the fuel ran out.
* Whole operations are executed without interference from other threads; single
  steps of the stack operations are given as well, to follow a fixed schedule of
  two threads.
-/

namespace Lockfree

variable {α : Type}

/-! ## Nodes and node storage -/

/-- Node structure (lines 21-26): a value and the address of the next node. -/
structure Node (α : Type) where
  Value : α
  pNext : Nat

/-- Node storage: the live node at each address, if any. -/
abbrev Heap (α : Type) := Nat → Option (Node α)

/-- Read through a pointer: `p->...`.  No node lives at `nullptr`. -/
def deref (h : Heap α) (p : Nat) : Option (Node α) :=
  if p = 0 then none else h p

/-- Write a node at an address. -/
def store (h : Heap α) (p : Nat) (n : Node α) : Heap α :=
  fun a => if a = p then some n else h a

/-- The effect of `delete p`: the address no longer holds a live node. -/
def free (h : Heap α) (p : Nat) : Heap α :=
  fun a => if a = p then none else h a

/-- Outcome of running an operation. -/
inductive Res (β : Type) where
  /-- The call returned. -/
  | done (r : β)
  /-- A read through `nullptr` or through an address holding no live node. -/
  | fault
  /-- The retry loop was still running when the fuel ran out. -/
  | timeout

/-! ## Compare-and-swap primitives -/

/-- Function `Cas` (lines 92-99 and 112-119) applied to the 32-bit word `w` stored at `ptr`:
the result flag and the new content of the word. -/
def Cas (w oldValue newValue : Nat) : Bool × Nat :=
  if w = oldValue then (true, newValue) else (false, w)

/-- Conversion of a 32-bit `LONG` to `LONG64`, as a 64-bit pattern (sign extension). -/
def sext (x : Nat) : Nat :=
  if x < 2 ^ 31 then x else x + (2 ^ 64 - 2 ^ 32)

/-- The 64-bit operand `Cas2` builds from a pointer and a counter:
`reinterpret_cast<LONG>(p) | (static_cast<LONG64>(t) << 32)` in the Windows branch (lines 104-105),
`reinterpret_cast<uint32_t>(p) | (static_cast<uint64_t>(t) << 32)` otherwise (lines 124-125). -/
def pack (windows : Bool) (p t : Nat) : Nat :=
  if windows then sext p ||| (t <<< 32) else p ||| (t <<< 32)

/-- Function `Cas2` (lines 101-109 and 121-129) applied to the two adjacent 32-bit words `w0`
(the word at `ptr`) and `w1` (the word after it): the result flag and the new content of both
words.  The non-Windows branch passes `exchanged` where it has computed `exchange`; it is read
as `exchange`. -/
def Cas2 (windows : Bool) (w0 w1 old1 old2 new1 new2 : Nat) : Bool × Nat × Nat :=
  let compared := pack windows old1 old2
  let exchange := pack windows new1 new2
  if w0 + w1 * 2 ^ 32 = compared then (true, exchange % 2 ^ 32, exchange / 2 ^ 32)
  else (false, w0, w1)

/-! ## LockfreeStack -/

/-- Class `LockfreeStack` (lines 35-56): the members `m_pHead`, `m_Pops` in declaration order,
together with the node storage. -/
structure LockfreeStack (α : Type) where
  m_pHead : Nat
  m_Pops : Nat
  heap : Heap α

/-- Constructor `LockfreeStack()` (lines 39-42). -/
def LockfreeStack.init (heap : Heap α) : LockfreeStack α :=
  { m_pHead := 0, m_Pops := 0, heap := heap }

/-- Call `Cas2(&m_pHead, ...)` on a stack: the 64-bit access covers `m_pHead` and `m_Pops`. -/
def LockfreeStack.cas2Head (windows : Bool) (s : LockfreeStack α) (old1 old2 new1 new2 : Nat) :
    Bool × LockfreeStack α :=
  let r := Cas2 windows s.m_pHead s.m_Pops old1 old2 new1 new2
  (r.1, { s with m_pHead := r.2.1, m_Pops := r.2.2 })

/-- One pass through the body of the `while (true)` loop of `LockfreeStack::push`
(lines 145-147).  The flag tells whether `break` is taken. -/
def LockfreeStack.pushIter (s : LockfreeStack α) (node : Nat) :
    Option (Bool × LockfreeStack α) :=
  match deref s.heap node with
  | none => none
  | some n =>
    -- node->pNext = m_pHead;
    let s1 := { s with heap := store s.heap node { n with pNext := s.m_pHead } }
    match deref s1.heap node with
    | none => none
    | some n1 =>
      -- if (!Cas(&m_pHead, node->pNext, node)) { break; }
      let r := Cas s1.m_pHead n1.pNext node
      some (!r.1, { s1 with m_pHead := r.2 })

/-- The `while (true)` loop of `LockfreeStack::push` (lines 143-148). -/
def LockfreeStack.pushLoop : Nat → LockfreeStack α → Nat → Res (LockfreeStack α)
  | 0, _, _ => Res.timeout
  | fuel + 1, s, node =>
    match s.pushIter node with
    | none => Res.fault
    | some (true, s1) => Res.done s1
    | some (false, s1) => LockfreeStack.pushLoop fuel s1 node

/-- Method `LockfreeStack::push` (lines 133-151).  `node` is the address returned by
`new(std::nothrow) Node<T>()`, `0` when the allocation fails. -/
def LockfreeStack.push (fuel : Nat) (s : LockfreeStack α) (value : α) (node : Nat) :
    Res (Bool × LockfreeStack α) :=
  if node = 0 then Res.done (false, s)
  else
    -- node->Value = value; node->pNext = nullptr;
    let s0 := { s with heap := store s.heap node { Value := value, pNext := 0 } }
    match LockfreeStack.pushLoop fuel s0 node with
    | Res.done s1 => Res.done (true, s1)
    | Res.fault => Res.fault
    | Res.timeout => Res.timeout

/-- Method `LockfreeStack::pop` (lines 153-171).  On entry `value` is the content of the
caller's output variable; the result carries the return value, what that output variable holds
on return, and the new state. -/
def LockfreeStack.pop (windows : Bool) :
    Nat → LockfreeStack α → α → Res (Bool × α × LockfreeStack α)
  | 0, _, _ => Res.timeout
  | fuel + 1, s, value =>
    let pHead := s.m_pHead
    let pops := s.m_Pops
    if pHead = 0 then Res.done (false, value, s)
    else
      match deref s.heap pHead with
      | none => Res.fault
      | some h =>
        let pNext := h.pNext
        let r := s.cas2Head windows pHead pops pNext ((pops + 1) % 2 ^ 32)
        if r.1 then
          -- value = pHead->Value; delete pHead; return true;
          match deref r.2.heap pHead with
          | none => Res.fault
          | some h1 => Res.done (true, h1.Value, { r.2 with heap := free r.2.heap pHead })
        else LockfreeStack.pop windows fuel r.2 value

/-- A call on a stack: a push with its value and the address the allocator returns for it, or a
pop with the initial content of the caller's output variable. -/
inductive StackOp (α : Type) where
  | push (value : α) (node : Nat)
  | pop (value : α)

/-- Run a sequence of calls one after the other.  Each call reports its return value and, for a
pop, the content of the output variable on return. -/
def LockfreeStack.run (windows : Bool) (fuel : Nat) :
    List (StackOp α) → LockfreeStack α → Res (List (Bool × Option α) × LockfreeStack α)
  | [], s => Res.done ([], s)
  | StackOp.push value node :: ops, s =>
    match s.push fuel value node with
    | Res.done (b, s1) =>
      match LockfreeStack.run windows fuel ops s1 with
      | Res.done (rs, s2) => Res.done ((b, none) :: rs, s2)
      | Res.fault => Res.fault
      | Res.timeout => Res.timeout
    | Res.fault => Res.fault
    | Res.timeout => Res.timeout
  | StackOp.pop value :: ops, s =>
    match s.pop windows fuel value with
    | Res.done (b, v, s1) =>
      match LockfreeStack.run windows fuel ops s1 with
      | Res.done (rs, s2) => Res.done ((b, some v) :: rs, s2)
      | Res.fault => Res.fault
      | Res.timeout => Res.timeout
    | Res.fault => Res.fault
    | Res.timeout => Res.timeout

/-! ## LockfreeQueue -/

/-- Class `LockfreeQueue` (lines 62-87): the members `m_pHead`, `m_pTail`, `m_Pops`, `m_Pushes`
in declaration order, together with the node storage. -/
structure LockfreeQueue (α : Type) where
  m_pHead : Nat
  m_pTail : Nat
  m_Pops : Nat
  m_Pushes : Nat
  heap : Heap α

/-- Constructor `LockfreeQueue()` (lines 66-71). -/
def LockfreeQueue.init (heap : Heap α) : LockfreeQueue α :=
  { m_pHead := 0, m_pTail := 0, m_Pops := 0, m_Pushes := 0, heap := heap }

/-- Call `Cas2(&m_pHead, ...)` on a queue: the 64-bit access covers `m_pHead` and the member declared
right after it, `m_pTail`. -/
def LockfreeQueue.cas2Head (windows : Bool) (q : LockfreeQueue α) (old1 old2 new1 new2 : Nat) :
    Bool × LockfreeQueue α :=
  let r := Cas2 windows q.m_pHead q.m_pTail old1 old2 new1 new2
  (r.1, { q with m_pHead := r.2.1, m_pTail := r.2.2 })

/-- Call `Cas2(&m_pTail, ...)` on a queue: the 64-bit access covers `m_pTail` and the member declared
right after it, `m_Pops`. -/
def LockfreeQueue.cas2Tail (windows : Bool) (q : LockfreeQueue α) (old1 old2 new1 new2 : Nat) :
    Bool × LockfreeQueue α :=
  let r := Cas2 windows q.m_pTail q.m_Pops old1 old2 new1 new2
  (r.1, { q with m_pTail := r.2.1, m_Pops := r.2.2 })

/-- One pass through the body of the `while (true)` loop of `LockfreeQueue::push`
(lines 188-194).  The result carries whether `break` is taken and the locals `pushes` and
`pTail`. -/
def LockfreeQueue.pushIter (windows : Bool) (q : LockfreeQueue α) (node : Nat) :
    Option (Bool × Nat × Nat × LockfreeQueue α) :=
  let pushes := q.m_Pushes
  let pTail := q.m_pTail
  -- Cas(&(m_pTail->pNext), nullptr, node)
  match deref q.heap q.m_pTail with
  | none => none
  | some t =>
    let r := Cas t.pNext 0 node
    if r.1 then
      some (true, pushes, pTail,
        { q with heap := store q.heap q.m_pTail { t with pNext := r.2 } })
    else
      -- Cas2(&m_pTail, pTail, pushes, m_pTail->pNext, pushes + 1)
      match deref q.heap q.m_pTail with
      | none => none
      | some t1 =>
        let r2 := q.cas2Tail windows pTail pushes t1.pNext ((pushes + 1) % 2 ^ 32)
        some (false, pushes, pTail, r2.2)

/-- The `while (true)` loop of `LockfreeQueue::push` (lines 186-195); on exit it yields the
locals `pushes`, `pTail` and the state. -/
def LockfreeQueue.pushLoop (windows : Bool) :
    Nat → LockfreeQueue α → Nat → Res (Nat × Nat × LockfreeQueue α)
  | 0, _, _ => Res.timeout
  | fuel + 1, q, node =>
    match q.pushIter windows node with
    | none => Res.fault
    | some (true, pushes, pTail, q1) => Res.done (pushes, pTail, q1)
    | some (false, _, _, q1) => LockfreeQueue.pushLoop windows fuel q1 node

/-- Method `LockfreeQueue::push` (lines 173-198).  `node` is the address returned by
`new(std::nothrow) Node<T>()`, `0` when the allocation fails.  `pNode` is the identifier used
on line 197, which the source declares nowhere; it is a parameter here.  After line 197 control
reaches the closing brace without a `return`: the returned flag is then `none`. -/
def LockfreeQueue.push (windows : Bool) (fuel : Nat) (q : LockfreeQueue α) (value : α)
    (node pNode : Nat) : Res (Option Bool × LockfreeQueue α) :=
  if node = 0 then Res.done (some false, q)
  else
    -- node->Value = value; node->pNext = nullptr;
    let q0 := { q with heap := store q.heap node { Value := value, pNext := 0 } }
    match LockfreeQueue.pushLoop windows fuel q0 node with
    | Res.done (pushes, pTail, q1) =>
      -- Cas2(&m_pTail, pTail, pushes, pNode, pushes + 1);
      let r := q1.cas2Tail windows pTail pushes pNode ((pushes + 1) % 2 ^ 32)
      Res.done (none, r.2)
    | Res.fault => Res.fault
    | Res.timeout => Res.timeout

/-- One pass through the body of the `while (true)` loop of `LockfreeQueue::pop`
(lines 207-230).  The first component is `some pHead` when `break` is taken, with the content
of the local `pHead` at that point, and `none` when the loop goes round again; then come the
content of the caller's output variable and the state. -/
def LockfreeQueue.popIter (windows : Bool) (q : LockfreeQueue α) (value : α) :
    Option (Option Nat × α × LockfreeQueue α) :=
  let pops := q.m_Pops
  let pushes := q.m_Pushes
  let pHead := q.m_pHead
  match deref q.heap pHead with
  | none => none
  | some h =>
    let pNext := h.pNext
    if pops ≠ q.m_Pops then some (none, value, q)
    else if pHead = q.m_pTail then
      if pNext = 0 then some (some 0, value, q)
      else
        let r := q.cas2Tail windows pHead pushes pNext ((pushes + 1) % 2 ^ 32)
        some (none, value, r.2)
    else if pNext ≠ 0 then
      -- value = pNext->Value;
      match deref q.heap pNext with
      | none => none
      | some n =>
        let r := q.cas2Head windows pHead pops pNext ((pops + 1) % 2 ^ 32)
        if r.1 then some (some pHead, n.Value, r.2) else some (none, n.Value, r.2)
    else some (none, value, q)

/-- The `while (true)` loop of `LockfreeQueue::pop` (lines 205-231); on exit it yields the local
`pHead`, the content of the output variable and the state. -/
def LockfreeQueue.popLoop (windows : Bool) :
    Nat → LockfreeQueue α → α → Res (Nat × α × LockfreeQueue α)
  | 0, _, _ => Res.timeout
  | fuel + 1, q, value =>
    match q.popIter windows value with
    | none => Res.fault
    | some (some pHead, v, q1) => Res.done (pHead, v, q1)
    | some (none, v, q1) => LockfreeQueue.popLoop windows fuel q1 v

/-- Method `LockfreeQueue::pop` (lines 200-240).  On entry `value` is the content of the
caller's output variable; the result carries the return value, what that output variable holds
on return, and the new state. -/
def LockfreeQueue.pop (windows : Bool) (fuel : Nat) (q : LockfreeQueue α) (value : α) :
    Res (Bool × α × LockfreeQueue α) :=
  match LockfreeQueue.popLoop windows fuel q value with
  | Res.done (pHead, v, q1) =>
    if pHead ≠ 0 then Res.done (true, v, { q1 with heap := free q1.heap pHead })
    else Res.done (false, v, q1)
  | Res.fault => Res.fault
  | Res.timeout => Res.timeout

/-- A call on a queue: a push with its value, the address the allocator returns for it and the
content of `pNode`, or a pop with the initial content of the caller's output variable. -/
inductive QueueOp (α : Type) where
  | push (value : α) (node pNode : Nat)
  | pop (value : α)

/-- Run a sequence of calls on a queue one after the other.  Each call reports its return value
(`none` when the call ends without `return`) and, for a pop, the content of the output variable
on return. -/
def LockfreeQueue.run (windows : Bool) (fuel : Nat) :
    List (QueueOp α) → LockfreeQueue α →
      Res (List (Option Bool × Option α) × LockfreeQueue α)
  | [], q => Res.done ([], q)
  | QueueOp.push value node pNode :: ops, q =>
    match q.push windows fuel value node pNode with
    | Res.done (b, q1) =>
      match LockfreeQueue.run windows fuel ops q1 with
      | Res.done (rs, q2) => Res.done ((b, none) :: rs, q2)
      | Res.fault => Res.fault
      | Res.timeout => Res.timeout
    | Res.fault => Res.fault
    | Res.timeout => Res.timeout
  | QueueOp.pop value :: ops, q =>
    match q.pop windows fuel value with
    | Res.done (b, v, q1) =>
      match LockfreeQueue.run windows fuel ops q1 with
      | Res.done (rs, q2) => Res.done ((some b, some v) :: rs, q2)
      | Res.fault => Res.fault
      | Res.timeout => Res.timeout
    | Res.fault => Res.fault
    | Res.timeout => Res.timeout

/-! ## Concrete states used in the evaluations below -/

/-- Node storage holding no node at all. -/
def emptyHeap : Heap Nat := fun _ => none

/-- A stack of two nodes: head → 8 (value 1) → 16 (value 2) → null, with `m_Pops = 0`. -/
def stackTwo : LockfreeStack Nat :=
  { m_pHead := 8, m_Pops := 0,
    heap := store (store emptyHeap 8 { Value := 1, pNext := 16 }) 16 { Value := 2, pNext := 0 } }

/-- A queue holding only a sentinel node at address 8, `m_pHead = m_pTail = 8`, both counters 0
(a state the constructor does not produce; it is installed by hand). -/
def queueSentinel : LockfreeQueue Nat :=
  { m_pHead := 8, m_pTail := 8, m_Pops := 0, m_Pushes := 0,
    heap := store emptyHeap 8 { Value := 0, pNext := 0 } }

/-- The state `LockfreeQueue::push` leaves when it is run on `queueSentinel` with value 1, the new
node at address 16 and `pNode = 16`: sentinel 8 → 16 (value 1) → null, `m_pHead = 8`,
`m_pTail = 16`, `m_Pops = 1`, `m_Pushes = 0`. -/
def queueOne : LockfreeQueue Nat :=
  { m_pHead := 8, m_pTail := 16, m_Pops := 1, m_Pushes := 0,
    heap := store (store emptyHeap 8 { Value := 0, pNext := 16 }) 16 { Value := 1, pNext := 0 } }

/-- A queue state whose `m_Pops` holds the same number as `m_pTail`: sentinel 8 → 16 (value 1)
→ null, `m_pHead = 8`, `m_pTail = 16`, `m_Pops = 16`, `m_Pushes = 0`. -/
def queueTailIsPops : LockfreeQueue Nat :=
  { m_pHead := 8, m_pTail := 16, m_Pops := 16, m_Pushes := 0,
    heap := store (store emptyHeap 8 { Value := 0, pNext := 16 }) 16 { Value := 1, pNext := 0 } }

/-- Observable part of a queue state: the four members and the nodes at the given addresses. -/
def LockfreeQueue.view (q : LockfreeQueue Nat) (addrs : List Nat) :
    Nat × Nat × Nat × Nat × List (Option (Nat × Nat)) :=
  (q.m_pHead, q.m_pTail, q.m_Pops, q.m_Pushes,
    addrs.map (fun a => (q.heap a).map (fun n => (n.Value, n.pNext))))

/-- Observable part of a stack state: the two members and the nodes at the given addresses. -/
def LockfreeStack.view (s : LockfreeStack Nat) (addrs : List Nat) :
    Nat × Nat × List (Option (Nat × Nat)) :=
  (s.m_pHead, s.m_Pops, addrs.map (fun a => (s.heap a).map (fun n => (n.Value, n.pNext))))

/-- Apply a function to the value a call returned. -/
def Res.map {β γ : Type} (f : β → γ) : Res β → Res γ
  | Res.done r => Res.done (f r)
  | Res.fault => Res.fault
  | Res.timeout => Res.timeout

/-! ## Single steps of the stack operations -/

/-- Line 145 of `LockfreeStack::push` on its own, `node->pNext = m_pHead;`: the snapshot of head
a pushing thread takes. -/
def LockfreeStack.pushSnapshot (s : LockfreeStack α) (node : Nat) : Option (LockfreeStack α) :=
  match deref s.heap node with
  | none => none
  | some n => some { s with heap := store s.heap node { n with pNext := s.m_pHead } }

/-- Line 146 of `LockfreeStack::push` on its own, `Cas(&m_pHead, node->pNext, node)`: the result
of the `Cas` and the new state. -/
def LockfreeStack.pushCas (s : LockfreeStack α) (node : Nat) : Option (Bool × LockfreeStack α) :=
  match deref s.heap node with
  | none => none
  | some n =>
    let r := Cas s.m_pHead n.pNext node
    some (r.1, { s with m_pHead := r.2 })

/-- Lines 158-163 of `LockfreeStack::pop` on their own: the snapshot (`pHead`, `pops`, `pNext`)
a popping thread takes; `none` when head is null or references no live node. -/
def LockfreeStack.popSnapshot (s : LockfreeStack α) : Option (Nat × Nat × Nat) :=
  match deref s.heap s.m_pHead with
  | none => none
  | some h => some (s.m_pHead, s.m_Pops, h.pNext)

/-- Line 164 of `LockfreeStack::pop` on its own, `Cas2(&m_pHead, pHead, pops, pNext, pops + 1)`,
with a snapshot (`pHead`, `pops`, `pNext`) taken earlier. -/
def LockfreeStack.popCas (windows : Bool) (s : LockfreeStack α) (snap : Nat × Nat × Nat) :
    Bool × LockfreeStack α :=
  s.cas2Head windows snap.1 snap.2.1 snap.2.2 ((snap.2.1 + 1) % 2 ^ 32)

/-- What the other threads do between a thread's snapshot and its compare-and-swap in the ABA
schedule: a complete pop, then a push of `value` whose node the allocator places at `node`, run
up to and including the first `Cas` of its loop. -/
def LockfreeStack.popThenPush (windows : Bool) (s : LockfreeStack α) (out value : α)
    (node : Nat) : Option (LockfreeStack α) :=
  match s.pop windows 1 out with
  | Res.done (true, _, s1) =>
    if node = 0 then none
    else
      match ({ s1 with heap := store s1.heap node { Value := value, pNext := 0 } } :
              LockfreeStack α).pushIter node with
      | some (_, s2) => some s2
      | none => none
  | _ => none

/-! ## Chains of nodes -/

/-- Number of nodes on the `pNext` chain from address `p` up to null, walking at most `fuel`
nodes; `none` when the chain does not reach null within `fuel` nodes or leaves the live
nodes. -/
def chainLength (h : Heap α) : Nat → Nat → Option Nat
  | 0, p => if p = 0 then some 0 else none
  | fuel + 1, p =>
    if p = 0 then some 0
    else
      match deref h p with
      | none => none
      | some n => (chainLength h fuel n.pNext).map (fun k => k + 1)

/-- Whether address `t` is met on the `pNext` chain from address `p` within `fuel` links. -/
def reaches (h : Heap α) : Nat → Nat → Nat → Bool
  | 0, p, t => decide (p = t)
  | fuel + 1, p, t =>
    decide (p = t) ||
      match deref h p with
      | none => false
      | some n => reaches h fuel n.pNext t

/-- Well-formed queue state: head and tail are non-null, tail is met on the chain from head
within `fuel` links, and the tail node is the last node of the chain or the one before it. -/
def LockfreeQueue.wellFormed (q : LockfreeQueue α) (fuel : Nat) : Bool :=
  decide (q.m_pHead ≠ 0) && decide (q.m_pTail ≠ 0) && reaches q.heap fuel q.m_pHead q.m_pTail &&
    match deref q.heap q.m_pTail with
    | none => false
    | some t =>
      decide (t.pNext = 0) ||
        match deref q.heap t.pNext with
        | none => false
        | some l => decide (l.pNext = 0)

/-! ## Layout of the data members -/

/-- Data members of `LockfreeStack` (lines 51-52). -/
inductive StackField where
  | m_pHead
  | m_Pops
  deriving DecidableEq

/-- Data members of `LockfreeQueue` (lines 80-83). -/
inductive QueueField where
  | m_pHead
  | m_pTail
  | m_Pops
  | m_Pushes
  deriving DecidableEq

/-- Declaration order of the members of `LockfreeStack`, one 32-bit word each. -/
def StackField.layout : List StackField :=
  [StackField.m_pHead, StackField.m_Pops]

/-- Declaration order of the members of `LockfreeQueue`, one 32-bit word each. -/
def QueueField.layout : List QueueField :=
  [QueueField.m_pHead, QueueField.m_pTail, QueueField.m_Pops, QueueField.m_Pushes]

/-- The member stored in the word right after member `f`, if any. -/
def fieldAfter {F : Type} [DecidableEq F] (layout : List F) (f : F) : Option F :=
  layout.get? (layout.indexOf f + 1)

/-- Read a member of a queue. -/
def LockfreeQueue.get (q : LockfreeQueue α) : QueueField → Nat
  | QueueField.m_pHead => q.m_pHead
  | QueueField.m_pTail => q.m_pTail
  | QueueField.m_Pops => q.m_Pops
  | QueueField.m_Pushes => q.m_Pushes

/-- Write a member of a queue. -/
def LockfreeQueue.set (q : LockfreeQueue α) (f : QueueField) (v : Nat) : LockfreeQueue α :=
  match f with
  | QueueField.m_pHead => { q with m_pHead := v }
  | QueueField.m_pTail => { q with m_pTail := v }
  | QueueField.m_Pops => { q with m_Pops := v }
  | QueueField.m_Pushes => { q with m_Pushes := v }

/-- Read a member of a stack. -/
def LockfreeStack.get (s : LockfreeStack α) : StackField → Nat
  | StackField.m_pHead => s.m_pHead
  | StackField.m_Pops => s.m_Pops

/-- Write a member of a stack. -/
def LockfreeStack.set (s : LockfreeStack α) (f : StackField) (v : Nat) : LockfreeStack α :=
  match f with
  | StackField.m_pHead => { s with m_pHead := v }
  | StackField.m_Pops => { s with m_Pops := v }

/-- Call `Cas2(&f, ...)` on the pointer member `f` of a queue, by the layout: the 64-bit access
covers the word of `f` and the word of the member declared right after it.  `none` when no
member follows `f`. -/
def LockfreeQueue.cas2At (windows : Bool) (q : LockfreeQueue α) (f : QueueField)
    (old1 old2 new1 new2 : Nat) : Option (Bool × LockfreeQueue α) :=
  match fieldAfter QueueField.layout f with
  | none => none
  | some g =>
    let r := Cas2 windows (q.get f) (q.get g) old1 old2 new1 new2
    some (r.1, (q.set f r.2.1).set g r.2.2)

/-- Call `Cas2(&f, ...)` on the pointer member `f` of a stack, by the layout. -/
def LockfreeStack.cas2At (windows : Bool) (s : LockfreeStack α) (f : StackField)
    (old1 old2 new1 new2 : Nat) : Option (Bool × LockfreeStack α) :=
  match fieldAfter StackField.layout f with
  | none => none
  | some g =>
    let r := Cas2 windows (s.get f) (s.get g) old1 old2 new1 new2
    some (r.1, (s.set f r.2.1).set g r.2.2)

/-! ## More concrete states -/

/-- A queue whose tail lags by one: sentinel 8 → 16 (value 1) → null, `m_pHead = m_pTail = 8`,
both counters 0. -/
def queueLagging : LockfreeQueue Nat :=
  { m_pHead := 8, m_pTail := 8, m_Pops := 0, m_Pushes := 0,
    heap := store (store emptyHeap 8 { Value := 0, pNext := 16 }) 16 { Value := 1, pNext := 0 } }

/-- The state `LockfreeQueue::push` leaves when it is run on `queueOne` with value 2, the new node
at address 24 and `pNode = 24`: sentinel 8 → 16 (value 1) → 24 (value 2) → null, `m_pHead = 8`,
`m_pTail = 16`, `m_Pops = 1`, `m_Pushes = 0`. -/
def queueTwo : LockfreeQueue Nat :=
  { m_pHead := 8, m_pTail := 16, m_Pops := 1, m_Pushes := 0,
    heap := store (store (store emptyHeap 8 { Value := 0, pNext := 16 })
      16 { Value := 1, pNext := 24 }) 24 { Value := 2, pNext := 0 } }

/-- The state inside push(1) on a freshly constructed stack, right after lines 136-141 have
allocated the node at address 8 and set its value 1 and a null `pNext`. -/
def stackFreshNode : LockfreeStack Nat :=
  { m_pHead := 0, m_Pops := 0, heap := store emptyHeap 8 { Value := 1, pNext := 0 } }

/-- The two-node stack `stackTwo` together with a node that a pushing thread has allocated at
address 32 with value 7 and not linked yet. -/
def stackTwoWithNode : LockfreeStack Nat :=
  { m_pHead := 8, m_Pops := 0,
    heap := store (store (store emptyHeap 8 { Value := 1, pNext := 16 })
      16 { Value := 2, pNext := 0 }) 32 { Value := 7, pNext := 0 } }

/-! ## A schedule of two threads, and the reference stack -/

/-- Sequential behaviour of a LIFO stack as the order law of the spec states it, in the result
format of `LockfreeStack.run`: a push puts its value on top and succeeds unless its allocation
failed; a pop takes the top value, or reports Empty and leaves the output variable alone. -/
def specStackRun : List (StackOp α) → List α → List (Bool × Option α)
  | [], _ => []
  | StackOp.push value node :: ops, st =>
    if node = 0 then (false, none) :: specStackRun ops st
    else (true, none) :: specStackRun ops (value :: st)
  | StackOp.pop value :: ops, [] => (false, some value) :: specStackRun ops []
  | StackOp.pop _ :: ops, top :: st => (true, some top) :: specStackRun ops st

/-- A schedule of two pushes on a freshly constructed stack.  Thread A calls push(1) and gets
its node at address 8; thread B calls push(2) and gets its node at address 16.  A runs lines
136-141 and line 145; B runs lines 136-141 and one whole pass of its loop (lines 145-146) and is
then suspended; A runs line 146.  The `break` of line 147, and with it `return true` on line
150, is taken when A's `Cas` has failed.  The result tells whether A's push has returned true,
whether B has left its loop, and the state; `none` on a fault. -/
def lostPushSchedule : Option (Bool × Bool × LockfreeStack Nat) :=
  let s0 : LockfreeStack Nat := LockfreeStack.init emptyHeap
  let sA0 : LockfreeStack Nat := { s0 with heap := store s0.heap 8 { Value := 1, pNext := 0 } }
  match sA0.pushSnapshot 8 with
  | none => none
  | some sA1 =>
    let sB0 : LockfreeStack Nat :=
      { sA1 with heap := store sA1.heap 16 { Value := 2, pNext := 0 } }
    match sB0.pushIter 16 with
    | none => none
    | some (brkB, sB1) =>
      match sB1.pushCas 8 with
      | none => none
      | some (casA, sA2) => some (!casA, brkB, sA2)

/-- The calls thread A makes, in program order: push(1), with its node at address 8, then three
pops. -/
def threadA : List (StackOp Nat) :=
  [StackOp.push 1 8, StackOp.pop 0, StackOp.pop 0, StackOp.pop 0]

/-! ## Arithmetic of the 64-bit operands -/

theorem lor_shiftLeft_eq_add (p t : Nat) (hp : p < 2 ^ 32) :
    p ||| (t <<< 32) = p + t * 2 ^ 32 := by
  rw [Nat.shiftLeft_eq, Nat.lor_comm, Nat.mul_comm t, ← Nat.mul_add_lt_is_or hp, Nat.add_comm]

theorem shiftLeft_lor_shiftLeft (a b : Nat) : (a <<< 32) ||| (b <<< 32) = (a ||| b) <<< 32 := by
  apply Nat.eq_of_testBit_eq
  intro i
  simp only [Nat.testBit_or, Nat.testBit_shiftLeft]
  cases decide (i ≥ 32) <;> simp

/-- The operand as a sum: the pointer in the low word; in the high word the counter, or, in the
Windows branch with the pointer's top bit set, the counter or-ed with all ones. -/
theorem pack_eq (windows : Bool) (p t : Nat) (hp : p < 2 ^ 32) :
    pack windows p t
      = p + (if windows = true ∧ 2 ^ 31 ≤ p then (2 ^ 32 - 1) ||| t else t) * 2 ^ 32 := by
  unfold pack sext
  cases windows
  · simp only [Bool.false_eq_true, if_false, false_and]
    exact lor_shiftLeft_eq_add p t hp
  · by_cases h : p < 2 ^ 31
    · have h2 : ¬ (2 ^ 31 ≤ p) := Nat.not_le.mpr h
      simp only [if_true, h, h2, and_false, if_false]
      exact lor_shiftLeft_eq_add p t hp
    · have h2 : 2 ^ 31 ≤ p := Nat.le_of_not_lt h
      simp only [if_true, h, h2, and_self, if_false]
      have e1 : p + (2 ^ 64 - 2 ^ 32) = p ||| ((2 ^ 32 - 1) <<< 32) := by
        rw [lor_shiftLeft_eq_add _ _ hp]; norm_num
      rw [e1, Nat.lor_assoc, shiftLeft_lor_shiftLeft]
      exact lor_shiftLeft_eq_add p _ hp

theorem pack_mod (windows : Bool) (p t : Nat) (hp : p < 2 ^ 32) :
    pack windows p t % 2 ^ 32 = p := by
  rw [pack_eq windows p t hp, Nat.add_mul_mod_self_right, Nat.mod_eq_of_lt hp]

theorem pack_safe (windows : Bool) (p t : Nat) (hp : p < 2 ^ 32)
    (hw : windows = true → p < 2 ^ 31) : pack windows p t = p + t * 2 ^ 32 := by
  have hc : ¬ (windows = true ∧ 2 ^ 31 ≤ p) := fun h => absurd (hw h.1) (Nat.not_lt.mpr h.2)
  rw [pack_eq windows p t hp, if_neg hc]

theorem pack_div (windows : Bool) (p t : Nat) (hp : p < 2 ^ 32)
    (hw : windows = true → p < 2 ^ 31) : pack windows p t / 2 ^ 32 = t := by
  rw [pack_safe windows p t hp hw, Nat.add_mul_div_right _ _ (by norm_num),
    Nat.div_eq_of_lt hp, Nat.zero_add]

/-! ## LockfreeStack: lemmas -/

theorem deref_store_self (h : Heap α) (p : Nat) (n : Node α) (hp : p ≠ 0) :
    deref (store h p n) p = some n := by
  simp [deref, store, hp]

theorem deref_ne_zero {h : Heap α} {p : Nat} {n : Node α} (hd : deref h p = some n) : p ≠ 0 := by
  intro h0
  simp [deref, h0] at hd

theorem deref_eq_of_ne_zero (h : Heap α) {p : Nat} (hp : p ≠ 0) : deref h p = h p := by
  simp [deref, hp]

/-- Without interference the `Cas` in the body of push's loop succeeds, so `break` is not taken:
the pass ends with `m_pHead = node` and `node->pNext` holding the head read at its start. -/
theorem LockfreeStack.pushIter_live (s : LockfreeStack α) (node : Nat) (n : Node α)
    (hd : deref s.heap node = some n) :
    s.pushIter node = some (false,
      { m_pHead := node, m_Pops := s.m_Pops,
        heap := store s.heap node { n with pNext := s.m_pHead } }) := by
  have hp := deref_ne_zero hd
  unfold LockfreeStack.pushIter
  simp [hd, deref_store_self, hp, Cas]

/-- The loop of push never reaches `break` when it runs without interference. -/
theorem LockfreeStack.pushLoop_timeout (fuel : Nat) :
    ∀ (s : LockfreeStack α) (node : Nat) (n : Node α), deref s.heap node = some n →
      LockfreeStack.pushLoop fuel s node = Res.timeout := by
  induction fuel with
  | zero => intro s node n _; rfl
  | succ k ih =>
    intro s node n hd
    unfold LockfreeStack.pushLoop
    rw [LockfreeStack.pushIter_live s node n hd]
    exact ih _ node _ (deref_store_self _ _ _ (deref_ne_zero hd))

/-- A push whose allocation succeeds never returns when it runs without interference. -/
theorem LockfreeStack.push_timeout (fuel : Nat) (s : LockfreeStack α) (value : α) (node : Nat)
    (hn : node ≠ 0) : s.push fuel value node = Res.timeout := by
  unfold LockfreeStack.push
  rw [if_neg hn]
  simp only []
  rw [LockfreeStack.pushLoop_timeout fuel _ node _ (deref_store_self _ _ _ hn)]

theorem LockfreeStack.run_push_timeout (windows : Bool) (fuel : Nat) (s : LockfreeStack α)
    (value : α) (node : Nat) (ops : List (StackOp α)) (hn : node ≠ 0) :
    LockfreeStack.run windows fuel (StackOp.push value node :: ops) s = Res.timeout := by
  unfold LockfreeStack.run
  rw [LockfreeStack.push_timeout fuel s value node hn]

/-- C1 (stack order law), evaluated on the code: starting from a freshly constructed stack, the
sequence push(1), push(2), push(3), pop, pop, pop never gets past its first push, whatever
the fuel; no pop is reached and no value is returned. -/
theorem stack_order_law_run_never_returns (windows : Bool) (fuel : Nat) :
    LockfreeStack.run windows fuel
      [StackOp.push 1 8, StackOp.push 2 16, StackOp.push 3 24,
        StackOp.pop 0, StackOp.pop 0, StackOp.pop 0]
      (LockfreeStack.init emptyHeap) = Res.timeout :=
  LockfreeStack.run_push_timeout windows fuel _ _ _ _ (by decide)

/-- C4 (stack push, uncontended), evaluated on the code for push(1) on a freshly constructed
stack with the new node at address 8: the first `Cas` succeeds and leaves head at the new node
with next = the previous head, but `break` is not taken; the second pass stores the node's own
address in its `pNext` and its `Cas` succeeds again; the call never returns. -/
theorem stack_push_loops_after_successful_cas (fuel : Nat) :
    (Cas (LockfreeStack.init emptyHeap).m_pHead 0 8).1 = true
    ∧ (({ LockfreeStack.init emptyHeap with
            heap := store emptyHeap 8 { Value := 1, pNext := 0 } } : LockfreeStack Nat).pushIter 8).map
          (fun r => (r.1, r.2.view [8])) = some (false, 8, 0, [some (1, 0)])
    ∧ ((({ LockfreeStack.init emptyHeap with
            heap := store emptyHeap 8 { Value := 1, pNext := 0 } } : LockfreeStack Nat).pushIter 8).bind
          (fun r => r.2.pushIter 8)).map
          (fun r => (r.1, r.2.view [8])) = some (false, 8, 0, [some (1, 8)])
    ∧ (LockfreeStack.init emptyHeap).push fuel 1 8 = Res.timeout :=
  ⟨rfl, rfl, rfl, LockfreeStack.push_timeout fuel _ _ _ (by decide)⟩

/-- The `Cas2` of a stack pop succeeds when the expected pair is the stored pair, and installs
the new pointer in `m_pHead`. -/
theorem LockfreeStack.cas2Head_self (windows : Bool) (s : LockfreeStack α) (new1 new2 : Nat)
    (hH : s.m_pHead < 2 ^ 32) (hN : new1 < 2 ^ 32)
    (hw : windows = true → s.m_pHead < 2 ^ 31) :
    s.cas2Head windows s.m_pHead s.m_Pops new1 new2
      = (true, { m_pHead := new1, m_Pops := pack windows new1 new2 / 2 ^ 32, heap := s.heap }) := by
  simp only [LockfreeStack.cas2Head, Cas2, pack_safe windows s.m_pHead s.m_Pops hH hw,
    pack_mod windows new1 new2 hN, if_true]

theorem LockfreeStack.pop_live (windows : Bool) (fuel : Nat) (s : LockfreeStack α) (value : α)
    (n : Node α) (hhead : s.m_pHead ≠ 0) (hn : s.heap s.m_pHead = some n)
    (hH : s.m_pHead < 2 ^ 32) (hN : n.pNext < 2 ^ 32)
    (hw : windows = true → s.m_pHead < 2 ^ 31) :
    s.pop windows (fuel + 1) value = Res.done (true, n.Value,
      { m_pHead := n.pNext,
        m_Pops := pack windows n.pNext ((s.m_Pops + 1) % 2 ^ 32) / 2 ^ 32,
        heap := free s.heap s.m_pHead }) := by
  unfold LockfreeStack.pop
  simp only [if_neg hhead, deref_eq_of_ne_zero _ hhead, hn,
    LockfreeStack.cas2Head_self windows s _ _ hH hN hw, if_true]

theorem LockfreeStack.pop_null (windows : Bool) (fuel : Nat) (s : LockfreeStack α) (value : α)
    (h : s.m_pHead = 0) : s.pop windows (fuel + 1) value = Res.done (false, value, s) := by
  unfold LockfreeStack.pop
  simp [h]

/-- C3 as amended: when head references a live node n (pointers are 32-bit words; in the
Windows branch n is at an address below 2^31), pop returns true, writes n's value to the
output and sets head to n's next; n is freed on the spot by `delete` and every other node is
left as it was. -/
theorem stack_pop_nonempty_frees_head (windows : Bool) (fuel : Nat) (s : LockfreeStack α)
    (value : α) (n : Node α) (hhead : s.m_pHead ≠ 0) (hn : s.heap s.m_pHead = some n)
    (hH : s.m_pHead < 2 ^ 32) (hN : n.pNext < 2 ^ 32)
    (hw : windows = true → s.m_pHead < 2 ^ 31) :
    ∃ s' : LockfreeStack α,
      s.pop windows (fuel + 1) value = Res.done (true, n.Value, s')
      ∧ s'.m_pHead = n.pNext
      ∧ s'.heap = free s.heap s.m_pHead :=
  ⟨_, LockfreeStack.pop_live windows fuel s value n hhead hn hH hN hw, rfl, rfl⟩

/-- The amended C3 applied to the two-node stack in the Windows branch: its premises hold there
and the pop returns value 1 with head at 16 and the node at 8 freed. -/
theorem stack_pop_nonempty_frees_head_witness :
    stackTwo.m_pHead ≠ 0 ∧ stackTwo.heap stackTwo.m_pHead = some { Value := 1, pNext := 16 }
    ∧ stackTwo.m_pHead < 2 ^ 32 ∧ (16 : Nat) < 2 ^ 32 ∧ ((true = true) → stackTwo.m_pHead < 2 ^ 31)
    ∧ ∃ s' : LockfreeStack Nat,
      stackTwo.pop true (0 + 1) 0 = Res.done (true, 1, s')
      ∧ s'.m_pHead = 16
      ∧ s'.heap = free stackTwo.heap stackTwo.m_pHead :=
  ⟨by decide, rfl, by decide, by decide, fun _ => by decide,
    stack_pop_nonempty_frees_head true 0 stackTwo 0 { Value := 1, pNext := 16 }
      (by decide) rfl (by decide) (by decide) (fun _ => by decide)⟩

/-- C3 as stated fails on the code: popping the two-node stack returns true with value 1 and
head at 16, but the popped node is not kept for retirement: on return its address 8 holds no
live node any more. -/
theorem stack_pop_retire_counterexample :
    (∃ s' : LockfreeStack Nat,
      stackTwo.pop false 1 0 = Res.done (true, 1, s') ∧ s'.m_pHead = 16 ∧ s'.heap 8 = none)
    ∧ ¬ ∃ s' : LockfreeStack Nat,
      stackTwo.pop false 1 0 = Res.done (true, 1, s') ∧ (s'.heap 8).isSome = true := by
  refine ⟨⟨_, rfl, rfl, rfl⟩, ?_⟩
  rintro ⟨s', h, hs⟩
  have h2 : stackTwo.pop false 1 0 = Res.done (true, 1,
      { m_pHead := 16, m_Pops := 1, heap := free stackTwo.heap 8 }) := rfl
  rw [h2] at h
  injection h with h
  injection h with _ h
  injection h with _ h
  subst h
  simp [free] at hs

/-- C5: on a stack whose head is null, pop returns false and leaves head, the pop counter, the
nodes and the caller's output variable as they were; hence every sequence of calls run after it
gives what it gives without that pop. -/
theorem stack_pop_empty_unchanged (windows : Bool) (fuel : Nat) (s : LockfreeStack α)
    (value : α) (ops : List (StackOp α)) (h : s.m_pHead = 0) :
    s.pop windows (fuel + 1) value = Res.done (false, value, s)
    ∧ LockfreeStack.run windows (fuel + 1) (StackOp.pop value :: ops) s
        = Res.map (fun r => ((false, some value) :: r.1, r.2))
            (LockfreeStack.run windows (fuel + 1) ops s) := by
  refine ⟨LockfreeStack.pop_null windows fuel s value h, ?_⟩
  conv_lhs => unfold LockfreeStack.run
  rw [LockfreeStack.pop_null windows fuel s value h]
  dsimp only
  generalize LockfreeStack.run windows (fuel + 1) ops s = r
  cases r with
  | done r => rfl
  | fault => rfl
  | timeout => rfl

/-- C5 applied to a stack with a null head, `m_Pops = 5` and two nodes left in storage. -/
theorem stack_pop_empty_unchanged_witness :
    ({ m_pHead := 0, m_Pops := 5, heap := stackTwo.heap } : LockfreeStack Nat).m_pHead = 0
    ∧ (({ m_pHead := 0, m_Pops := 5, heap := stackTwo.heap } : LockfreeStack Nat).pop false (0 + 1) 7
        = Res.done (false, 7, { m_pHead := 0, m_Pops := 5, heap := stackTwo.heap })
      ∧ LockfreeStack.run false (0 + 1) (StackOp.pop 7 :: [StackOp.pop 3])
          { m_pHead := 0, m_Pops := 5, heap := stackTwo.heap }
        = Res.map (fun r => ((false, some 7) :: r.1, r.2))
            (LockfreeStack.run false (0 + 1) [StackOp.pop 3]
              { m_pHead := 0, m_Pops := 5, heap := stackTwo.heap })) :=
  ⟨rfl, stack_pop_empty_unchanged false 0 { m_pHead := 0, m_Pops := 5, heap := stackTwo.heap } 7
    [StackOp.pop 3] rfl⟩

/-- C10: when the allocation fails (`new` yields null), `LockfreeStack::push` and
`LockfreeQueue::push` return false at once, whatever the fuel, and the state they return is the
state they were given: every member and every node is unchanged. -/
theorem push_allocation_failure_unchanged (windows : Bool) (fuel : Nat) (s : LockfreeStack α)
    (q : LockfreeQueue α) (value : α) (pNode : Nat) :
    s.push fuel value 0 = Res.done (false, s)
    ∧ q.push windows fuel value 0 pNode = Res.done (some false, q) :=
  ⟨by simp [LockfreeStack.push], by simp [LockfreeQueue.push]⟩

/-! ## LockfreeQueue: lemmas -/

/-- With `m_pHead` null, the first statement of pop's loop body that reads `pHead->pNext`
faults. -/
theorem LockfreeQueue.pop_null_head (windows : Bool) (fuel : Nat) (q : LockfreeQueue α)
    (value : α) (h : q.m_pHead = 0) : q.pop windows (fuel + 1) value = Res.fault := by
  simp [LockfreeQueue.pop, LockfreeQueue.popLoop, LockfreeQueue.popIter, deref, h]

/-- With `m_pTail` null, the `Cas` on `m_pTail->pNext` in push's loop body faults. -/
theorem LockfreeQueue.push_null_tail (windows : Bool) (fuel : Nat) (q : LockfreeQueue α)
    (value : α) (node pNode : Nat) (hn : node ≠ 0) (h : q.m_pTail = 0) :
    q.push windows (fuel + 1) value node pNode = Res.fault := by
  simp [LockfreeQueue.push, LockfreeQueue.pushLoop, LockfreeQueue.pushIter, deref, h, hn]

/-- A pass through pop's loop that goes round again with the state it started from repeats for
ever. -/
theorem LockfreeQueue.popLoop_stuck (windows : Bool) (q : LockfreeQueue α) (f : α → α)
    (h : ∀ v, q.popIter windows v = some (none, f v, q)) (fuel : Nat) :
    ∀ v, LockfreeQueue.popLoop windows fuel q v = Res.timeout := by
  induction fuel with
  | zero => intro v; rfl
  | succ k ih =>
    intro v
    unfold LockfreeQueue.popLoop
    rw [h v]
    exact ih (f v)

/-- A pass through push's loop that goes round again with the state it started from repeats for
ever. -/
theorem LockfreeQueue.pushLoop_stuck (windows : Bool) (q : LockfreeQueue α) (node a b : Nat)
    (h : q.pushIter windows node = some (false, a, b, q)) (fuel : Nat) :
    LockfreeQueue.pushLoop windows fuel q node = Res.timeout := by
  induction fuel with
  | zero => rfl
  | succ k ih =>
    unfold LockfreeQueue.pushLoop
    rw [h]
    exact ih

/-- A push whose first pass through the loop goes round again with the state it started from
never returns. -/
theorem LockfreeQueue.push_stuck (windows : Bool) (fuel : Nat) (q : LockfreeQueue α) (value : α)
    (node pNode a b : Nat) (hn : node ≠ 0)
    (h : ({ q with heap := store q.heap node { Value := value, pNext := 0 } } :
            LockfreeQueue α).pushIter windows node
          = some (false, a, b,
              { q with heap := store q.heap node { Value := value, pNext := 0 } })) :
    q.push windows fuel value node pNode = Res.timeout := by
  unfold LockfreeQueue.push
  rw [if_neg hn]
  dsimp only
  rw [LockfreeQueue.pushLoop_stuck windows _ node a b h fuel]

/-- Starting from a queue holding only a sentinel, two pushes return and leave a state on which
a pass through the loop of a third push changes nothing and goes round again. -/
theorem queueSentinel_two_pushes (windows : Bool) (k : Nat) :
    ∃ q1 : LockfreeQueue Nat,
      queueSentinel.push windows (k + 1) 1 16 16 = Res.done (none, q1)
      ∧ ∃ q2 : LockfreeQueue Nat,
        q1.push windows (k + 1) 2 24 24 = Res.done (none, q2)
        ∧ ({ q2 with heap := store q2.heap 32 { Value := 3, pNext := 0 } } :
              LockfreeQueue Nat).pushIter windows 32
            = some (false, 0, 16,
                { q2 with heap := store q2.heap 32 { Value := 3, pNext := 0 } }) := by
  cases windows
  · exact ⟨_, rfl, _, rfl, rfl⟩
  · exact ⟨_, rfl, _, rfl, rfl⟩

/-- On a queue whose head and tail reference the same live node with a null `pNext`, pop
returns false and changes nothing. -/
theorem LockfreeQueue.pop_sentinel_only (windows : Bool) (fuel : Nat) (q : LockfreeQueue α)
    (value : α) (n : Node α) (hh : q.m_pHead ≠ 0) (ht : q.m_pTail = q.m_pHead)
    (hn : q.heap q.m_pHead = some n) (hnext : n.pNext = 0) :
    q.pop windows (fuel + 1) value = Res.done (false, value, q) := by
  simp [LockfreeQueue.pop, LockfreeQueue.popLoop, LockfreeQueue.popIter, deref, hh, ht, hn, hnext]

/-- C2 (queue order law), evaluated on the code.  On a freshly constructed queue the sequence
push(1), push(2), push(3), pop, pop, pop faults in its first push, which reads
`m_pTail->pNext` through the null tail the constructor left.  With a sentinel node installed by
hand in place of the constructor's nulls, the same sequence never gets past its third push. -/
theorem queue_order_law_run_fails (windows : Bool) (fuel : Nat) :
    LockfreeQueue.run windows (fuel + 1)
      [QueueOp.push 1 8 8, QueueOp.push 2 16 16, QueueOp.push 3 24 24,
        QueueOp.pop 0, QueueOp.pop 0, QueueOp.pop 0]
      (LockfreeQueue.init emptyHeap) = Res.fault
    ∧ LockfreeQueue.run windows fuel
      [QueueOp.push 1 16 16, QueueOp.push 2 24 24, QueueOp.push 3 32 32,
        QueueOp.pop 0, QueueOp.pop 0, QueueOp.pop 0]
      queueSentinel = Res.timeout := by
  constructor
  · unfold LockfreeQueue.run
    rw [LockfreeQueue.push_null_tail windows fuel _ _ _ _ (by decide) rfl]
  · cases fuel with
    | zero => rfl
    | succ k =>
      obtain ⟨q1, h1, q2, h2, h3⟩ := queueSentinel_two_pushes windows k
      unfold LockfreeQueue.run
      rw [h1]
      dsimp only
      unfold LockfreeQueue.run
      rw [h2]
      dsimp only
      unfold LockfreeQueue.run
      rw [LockfreeQueue.push_stuck windows (k + 1) q2 3 32 32 0 16 (by decide) h3]

/-- C6 (empty queue), evaluated on the code: on a freshly constructed queue, whatever the node
storage holds, pop does not return false: it faults reading `pHead->pNext` through the null
head the constructor left. -/
theorem queue_pop_fresh_faults (windows : Bool) (fuel : Nat) (heap : Heap α) (value : α) :
    (LockfreeQueue.init heap).pop windows (fuel + 1) value = Res.fault :=
  LockfreeQueue.pop_null_head windows fuel _ value rfl

/-- C7 (queue construction), evaluated on the code: the constructor sets `m_pHead` and `m_pTail`
to null and both counters to 0, allocates no node (the node storage is untouched), and so
head references no sentinel. -/
theorem queue_constructor_leaves_null (heap : Heap α) :
    (LockfreeQueue.init heap).m_pHead = 0 ∧ (LockfreeQueue.init heap).m_pTail = 0
    ∧ (LockfreeQueue.init heap).heap = heap
    ∧ deref (LockfreeQueue.init heap).heap (LockfreeQueue.init heap).m_pHead = none :=
  ⟨rfl, rfl, rfl, rfl⟩

/-- Method `LockfreeQueue::push` has no `return true`: no run of it returns success. -/
theorem LockfreeQueue.push_ne_true (windows : Bool) (fuel : Nat) (q q' : LockfreeQueue α)
    (value : α) (node pNode : Nat) :
    q.push windows fuel value node pNode ≠ Res.done (some true, q') := by
  unfold LockfreeQueue.push
  split
  · intro h
    injection h with h
    injection h with h _
    injection h with h
    exact Bool.noConfusion h
  · dsimp only
    split
    · intro h
      injection h with h
      injection h with h _
      exact Option.noConfusion h
    · intro h; exact Res.noConfusion h
    · intro h; exact Res.noConfusion h

/-- The `Cas2` on `&m_pHead` of a queue compares the expected counter with `m_pTail`: when they
differ it fails and changes nothing. -/
theorem LockfreeQueue.cas2Head_fail (windows : Bool) (q : LockfreeQueue α) (old2 new1 new2 : Nat)
    (hH : q.m_pHead < 2 ^ 32) (hw : windows = true → q.m_pHead < 2 ^ 31)
    (hne : q.m_pTail ≠ old2) :
    q.cas2Head windows q.m_pHead old2 new1 new2 = (false, q) := by
  have h : ¬ (q.m_pHead + q.m_pTail * 2 ^ 32 = q.m_pHead + old2 * 2 ^ 32) := by
    intro e
    exact hne (Nat.eq_of_mul_eq_mul_right (by norm_num) (Nat.add_left_cancel e))
  simp only [LockfreeQueue.cas2Head, Cas2, pack_safe windows q.m_pHead old2 hH hw, if_neg h]

/-- When the expected counter happens to equal `m_pTail`, the `Cas2` on `&m_pHead` succeeds and
writes the new counter over `m_pTail`. -/
theorem LockfreeQueue.cas2Head_succ (windows : Bool) (q : LockfreeQueue α) (new1 new2 : Nat)
    (hH : q.m_pHead < 2 ^ 32) (hN : new1 < 2 ^ 32)
    (hw : windows = true → q.m_pHead < 2 ^ 31 ∧ new1 < 2 ^ 31) :
    q.cas2Head windows q.m_pHead q.m_pTail new1 new2
      = (true, { q with m_pHead := new1, m_pTail := new2 }) := by
  simp only [LockfreeQueue.cas2Head, Cas2,
    pack_safe windows q.m_pHead q.m_pTail hH (fun h => (hw h).1),
    pack_mod windows new1 new2 hN, pack_div windows new1 new2 hN (fun h => (hw h).2), if_true]

theorem succ_mod_ne (t : Nat) : (t + 1) % 2 ^ 32 ≠ t := by
  omega

/-- Queue pop on a state with head different from tail and a live successor n of the head
node: the `Cas2` on `&m_pHead` compares `m_Pops` with `m_pTail`.  If they differ, pop never
returns; if they are equal, pop returns true with n's value and writes the incremented counter
over `m_pTail`. -/
theorem LockfreeQueue.pop_nonempty_cases (windows : Bool) (q : LockfreeQueue α) (h n : Node α)
    (hh : q.m_pHead ≠ 0) (hne : q.m_pHead ≠ q.m_pTail) (hhd : q.heap q.m_pHead = some h)
    (hnx : h.pNext ≠ 0) (hn : q.heap h.pNext = some n)
    (hH : q.m_pHead < 2 ^ 32) (hN : h.pNext < 2 ^ 32)
    (hw : windows = true → q.m_pHead < 2 ^ 31 ∧ h.pNext < 2 ^ 31) :
    (q.m_pTail ≠ q.m_Pops → ∀ fuel value, q.pop windows fuel value = Res.timeout)
    ∧ (q.m_pTail = q.m_Pops → ∀ fuel value, ∃ q' : LockfreeQueue α,
        q.pop windows (fuel + 1) value = Res.done (true, n.Value, q')
        ∧ q'.m_pHead = h.pNext ∧ q'.m_pTail = (q.m_Pops + 1) % 2 ^ 32
        ∧ q'.m_pTail ≠ q.m_pTail) := by
  constructor
  · intro hd fuel value
    have hi : ∀ v, q.popIter windows v = some (none, n.Value, q) := by
      intro v
      simp only [LockfreeQueue.popIter, deref_eq_of_ne_zero _ hh, hhd, ne_eq, not_true,
        if_false, if_neg hne, hnx, not_false_eq_true, if_true, deref_eq_of_ne_zero _ hnx, hn,
        LockfreeQueue.cas2Head_fail windows q _ _ _ hH (fun e => (hw e).1) hd]
      simp
    unfold LockfreeQueue.pop
    rw [LockfreeQueue.popLoop_stuck windows q (fun _ => n.Value) hi fuel value]
  · intro he fuel value
    have hc := LockfreeQueue.cas2Head_succ windows q h.pNext ((q.m_Pops + 1) % 2 ^ 32) hH hN hw
    rw [he] at hc
    have hi : q.popIter windows value = some (some q.m_pHead, n.Value,
        { q with m_pHead := h.pNext, m_pTail := (q.m_Pops + 1) % 2 ^ 32 }) := by
      simp only [LockfreeQueue.popIter, deref_eq_of_ne_zero _ hh, hhd, ne_eq, not_true,
        if_false, if_neg hne, hnx, not_false_eq_true, if_true, deref_eq_of_ne_zero _ hnx, hn, hc]
    refine ⟨{ m_pHead := h.pNext, m_pTail := (q.m_Pops + 1) % 2 ^ 32, m_Pops := q.m_Pops,
              m_Pushes := q.m_Pushes, heap := free q.heap q.m_pHead }, ?_, rfl, rfl, ?_⟩
    · unfold LockfreeQueue.pop LockfreeQueue.popLoop
      rw [hi]
      simp [hh]
    · show (q.m_Pops + 1) % 2 ^ 32 ≠ q.m_pTail
      rw [he]
      exact succ_mod_ne _

/-- C8 (queue push, uncontended), evaluated on the code.  On the state sentinel 8 → 16 with
tail at the last node 16, `m_Pops = 1`, `m_Pushes = 0`, push(2) with the new node at 24 (and
`pNode` = 24) links 24 after 16 and leaves head at 8, but it does not advance tail, which stays
at 16, and it ends without returning a value.  On the sentinel-only state with both counters 0
the same call does move tail to `pNode`, but writes the incremented counter into `m_Pops`, not
`m_Pushes`, and again returns no value.  No run of push returns true. -/
theorem queue_push_uncontended_fails (windows : Bool) (fuel : Nat) (q q' : LockfreeQueue α)
    (value : α) (node pNode : Nat) :
    (queueOne.push windows (fuel + 1) 2 24 24).map (fun r => (r.1, r.2.view [8, 16, 24]))
      = Res.done (none, 8, 16, 1, 0, [some (0, 16), some (1, 24), some (2, 0)])
    ∧ (queueSentinel.push windows (fuel + 1) 1 16 16).map (fun r => (r.1, r.2.view [8, 16]))
      = Res.done (none, 8, 16, 1, 0, [some (0, 16), some (1, 0)])
    ∧ q.push windows fuel value node pNode ≠ Res.done (some true, q') := by
  refine ⟨?_, ?_, LockfreeQueue.push_ne_true windows fuel q q' value node pNode⟩
  · cases windows <;> rfl
  · cases windows <;> rfl

/-- C9 (queue pop, non-empty), evaluated on the code.  The state sentinel 8 → 16 (value 1),
head 8, tail 16, `m_Pops = 1`, `m_Pushes = 0`, which the code's own push leaves after one push
on a sentinel-only queue, meets the claim's premises.  Each pass through pop's loop copies the
value 1 to the output, then its `Cas2` on `&m_pHead` compares the pair (`m_pHead`, `m_pTail`)
= (8, 16) with (8, `m_Pops`) = (8, 1) and fails, changing no member and no node; pop never
returns, head stays at 8 and the old head node is never handed on. -/
theorem queue_pop_nonempty_never_returns :
    (queueSentinel.push false 1 1 16 16).map (fun r => r.2.view [8, 16])
      = Res.done (queueOne.view [8, 16])
    ∧ (queueOne.m_pHead ≠ queueOne.m_pTail
      ∧ queueOne.heap queueOne.m_pHead = some { Value := 0, pNext := 16 }
      ∧ queueOne.heap 16 = some { Value := 1, pNext := 0 })
    ∧ (∀ (windows : Bool) (value : Nat),
        (queueOne.popIter windows value).map (fun r => (r.1, r.2.1, r.2.2.view [8, 16]))
          = some (none, 1, queueOne.view [8, 16]))
    ∧ (∀ (windows : Bool) (fuel value : Nat), queueOne.pop windows fuel value = Res.timeout) := by
  refine ⟨rfl, ⟨by decide, rfl, rfl⟩, ?_, ?_⟩
  · intro windows value
    cases windows <;> rfl
  · intro windows fuel value
    exact (LockfreeQueue.pop_nonempty_cases windows queueOne { Value := 0, pNext := 16 }
      { Value := 1, pNext := 0 } (by decide) (by decide) rfl (by decide) rfl (by decide)
      (by decide) (fun _ => ⟨by decide, by decide⟩)).1 (by decide) fuel value

/-! ## The tagged compare-and-swap -/

/-- On 32-bit words, with the pointers below 2^31 in the Windows branch, `Cas2` compares the
stored pair with the expected pair and, on a match, stores the new pair. -/
theorem Cas2_of_safe (windows : Bool) (w0 w1 old1 old2 new1 new2 : Nat)
    (h0 : w0 < 2 ^ 32) (ho : old1 < 2 ^ 32) (hn : new1 < 2 ^ 32)
    (hw : windows = true → old1 < 2 ^ 31 ∧ new1 < 2 ^ 31) :
    Cas2 windows w0 w1 old1 old2 new1 new2
      = if w0 = old1 ∧ w1 = old2 then (true, new1, new2) else (false, w0, w1) := by
  have hiff : (w0 + w1 * 2 ^ 32 = old1 + old2 * 2 ^ 32) ↔ (w0 = old1 ∧ w1 = old2) := by
    constructor
    · intro e
      constructor <;> omega
    · rintro ⟨e1, e2⟩
      rw [e1, e2]
  simp only [Cas2, pack_safe windows old1 old2 ho (fun h => (hw h).1), hiff,
    pack_mod windows new1 new2 hn, pack_div windows new1 new2 hn (fun h => (hw h).2)]

/-- Two operands built from 32-bit pointers (below 2^31 in the Windows branch) are equal only
if pointers and counters are equal. -/
theorem pack_injective_of_safe (windows : Bool) (p1 t1 p2 t2 : Nat)
    (h1 : p1 < 2 ^ 32) (h2 : p2 < 2 ^ 32)
    (hw : windows = true → p1 < 2 ^ 31 ∧ p2 < 2 ^ 31)
    (e : pack windows p1 t1 = pack windows p2 t2) : p1 = p2 ∧ t1 = t2 := by
  rw [pack_safe windows p1 t1 h1 (fun h => (hw h).1),
    pack_safe windows p2 t2 h2 (fun h => (hw h).2)] at e
  constructor <;> omega

/-- C11 (tagged CAS contract), evaluated on the Windows branch of `Cas2` with a pointer whose top
bit is set.  With the stored pair (2^31, 0) equal to the expected pair, the call with new pair
(8, 1) returns false and stores nothing.  With the stored pair (2^31, 2^32 - 1) and the
expected pair (2^31, 5), which differ in the tag, it returns true and stores (8, 6).  With
stored and expected pair (8, 0) and new pointer 2^31 it returns true but stores the tag
2^32 - 1, not 1. -/
theorem cas2_windows_breaks_contract :
    Cas2 true (2 ^ 31) 0 (2 ^ 31) 0 8 ((0 + 1) % 2 ^ 32) = (false, 2 ^ 31, 0)
    ∧ Cas2 true (2 ^ 31) (2 ^ 32 - 1) (2 ^ 31) 5 8 ((5 + 1) % 2 ^ 32) = (true, 8, 6)
    ∧ Cas2 true 8 0 8 0 (2 ^ 31) ((0 + 1) % 2 ^ 32) = (true, 2 ^ 31, 2 ^ 32 - 1) := by
  refine ⟨?_, ?_, ?_⟩ <;> decide

/-- C16 (packing is injective), evaluated on the Windows branch: for the pointer 2^31 the
operands built with the tags 0 and 1 are the same number, 2^31 + (2^32 - 1) * 2^32, which is
not 2^31 + 0 * 2^32: the conversion of the pointer to `LONG` and then to `LONG64` fills the
high word with ones. -/
theorem pack_windows_not_injective :
    pack true (2 ^ 31) 0 = pack true (2 ^ 31) 1
    ∧ pack true (2 ^ 31) 0 = 2 ^ 31 + (2 ^ 32 - 1) * 2 ^ 32
    ∧ pack true (2 ^ 31) 0 ≠ 2 ^ 31 + 0 * 2 ^ 32
    ∧ pack false (2 ^ 31) 0 = 2 ^ 31 + 0 * 2 ^ 32 := by
  refine ⟨?_, ?_, ?_, ?_⟩ <;> decide

/-! ## Tags on the stack head -/

/-- A failed `Cas2` on the stack head leaves the stack as it was. -/
theorem LockfreeStack.cas2Head_eq_of_fail (windows : Bool) (s : LockfreeStack α)
    (old1 old2 new1 new2 : Nat) (h : (s.cas2Head windows old1 old2 new1 new2).1 = false) :
    (s.cas2Head windows old1 old2 new1 new2).2 = s := by
  unfold LockfreeStack.cas2Head Cas2 at *
  dsimp only at *
  split at h
  · exact absurd h (by simp)
  · rename_i hne
    simp only [if_neg hne]

/-- The `Cas` of push writes `m_pHead` only. -/
theorem LockfreeStack.pushCas_pops (s s2 : LockfreeStack α) (node : Nat) (b : Bool)
    (h : s.pushCas node = some (b, s2)) : s2.m_Pops = s.m_Pops ∧ s2.heap = s.heap := by
  unfold LockfreeStack.pushCas at h
  split at h
  · exact Option.noConfusion h
  · injection h with h
    injection h with _ h
    subst h
    exact ⟨rfl, rfl⟩

/-- C12 as stated fails on the code: pushing the node at 32 onto the two-node stack, the `Cas`
of push succeeds and moves head from 8 to 32, and `m_Pops` is 0 after it as it was before. -/
theorem stack_push_cas_keeps_tag_counterexample :
    stackTwoWithNode.m_Pops = 0
    ∧ ((stackTwoWithNode.pushSnapshot 32).bind (fun s => s.pushCas 32)).map
        (fun r => (r.1, r.2.view [32])) = some (true, 32, 0, [some (7, 8)]) :=
  ⟨rfl, rfl⟩

/-- C12 as amended: whenever the `Cas2` of pop on the stack head succeeds (32-bit pointers, in
the Windows branch below 2^31), it installs the new target and leaves `m_Pops` one higher
modulo 2^32 than it was, whatever the new target is; the `Cas` of push on the head, successful
or not, leaves `m_Pops` as it was. -/
theorem stack_head_cas_tag (windows : Bool) (s : LockfreeStack α) (snap : Nat × Nat × Nat)
    (node : Nat) (hH : s.m_pHead < 2 ^ 32) (h1 : snap.1 < 2 ^ 32) (h3 : snap.2.2 < 2 ^ 32)
    (hw : windows = true → snap.1 < 2 ^ 31 ∧ snap.2.2 < 2 ^ 31)
    (hc : (s.popCas windows snap).1 = true) :
    (s.popCas windows snap).2.m_pHead = snap.2.2
    ∧ (s.popCas windows snap).2.m_Pops = (s.m_Pops + 1) % 2 ^ 32
    ∧ ∀ (b : Bool) (s2 : LockfreeStack α), s.pushCas node = some (b, s2) →
        s2.m_Pops = s.m_Pops := by
  have hcas := Cas2_of_safe windows s.m_pHead s.m_Pops snap.1 snap.2.1 snap.2.2
    ((snap.2.1 + 1) % 2 ^ 32) hH h1 h3 hw
  refine ⟨?_, ?_, fun b s2 h => (LockfreeStack.pushCas_pops s s2 node b h).1⟩
  · unfold LockfreeStack.popCas LockfreeStack.cas2Head at *
    dsimp only at *
    rw [hcas] at hc ⊢
    split at hc
    · rename_i hcond
      simp only [if_pos hcond]
    · exact absurd hc (by simp)
  · unfold LockfreeStack.popCas LockfreeStack.cas2Head at *
    dsimp only at *
    rw [hcas] at hc ⊢
    split at hc
    · rename_i hcond
      rw [if_pos hcond, hcond.2]
    · exact absurd hc (by simp)

/-- The amended C12 applied to the two-node stack and the snapshot (8, 0, 16) of its head. -/
theorem stack_head_cas_tag_witness :
    stackTwo.m_pHead < 2 ^ 32 ∧ (8 : Nat) < 2 ^ 32 ∧ (16 : Nat) < 2 ^ 32
    ∧ (stackTwo.popCas true (8, 0, 16)).1 = true
    ∧ (stackTwo.popCas true (8, 0, 16)).2.m_pHead = 16
    ∧ (stackTwo.popCas true (8, 0, 16)).2.m_Pops = (stackTwo.m_Pops + 1) % 2 ^ 32
    ∧ ∀ (b : Bool) (s2 : LockfreeStack Nat), stackTwo.pushCas 16 = some (b, s2) →
        s2.m_Pops = stackTwo.m_Pops :=
  ⟨by decide, by decide, by decide, rfl,
    stack_head_cas_tag true stackTwo (8, 0, 16) 16 (by decide) (by decide) (by decide)
      (fun _ => ⟨by decide, by decide⟩) rfl⟩

/-! ## The ABA schedule on the stack -/

/-- The other threads' part of the ABA schedule, on a stack whose head P is a live node: the
pop unlinks and frees P and raises `m_Pops`; the push that gets its node at P again makes P
the head, with the old second node as its successor. -/
theorem LockfreeStack.popThenPush_live (windows : Bool) (s : LockfreeStack α) (out value : α)
    (h : Node α) (hhead : s.m_pHead ≠ 0) (hh : s.heap s.m_pHead = some h)
    (hH : s.m_pHead < 2 ^ 32) (hN : h.pNext < 2 ^ 32)
    (hw : windows = true → s.m_pHead < 2 ^ 31 ∧ h.pNext < 2 ^ 31) :
    s.popThenPush windows out value s.m_pHead = some
      { m_pHead := s.m_pHead, m_Pops := (s.m_Pops + 1) % 2 ^ 32,
        heap := store (store (free s.heap s.m_pHead) s.m_pHead { Value := value, pNext := 0 })
          s.m_pHead { Value := value, pNext := h.pNext } } := by
  unfold LockfreeStack.popThenPush
  rw [LockfreeStack.pop_live windows 0 s out h hhead hh hH hN (fun e => (hw e).1)]
  simp only [if_neg hhead]
  rw [LockfreeStack.pushIter_live _ s.m_pHead { Value := value, pNext := 0 }
    (deref_store_self _ _ _ hhead)]
  simp only [pack_div windows h.pNext _ hN (fun e => (hw e).2)]

/-- C13 as stated fails on the code when the suspended operation is a push.  Thread A has
stored head = 8 in the `pNext` of its node at 32; the other threads pop the node at 8 and push
a new node (value 9) that is allocated at 8 again; A's `Cas` on head then succeeds and makes
32 the head. -/
theorem stack_aba_push_cas_counterexample :
    ((stackTwoWithNode.pushSnapshot 32).bind
        (fun sA => (sA.popThenPush false 0 9 8).bind (fun s2 => s2.pushCas 32))).map
      (fun r => (r.1, r.2.view [8, 16, 32]))
      = some (true, 32, 1, [some (9, 16), some (2, 0), some (7, 8)]) :=
  rfl

/-- C13 as amended: thread A has snapshotted head = P, a live node, on a stack (32-bit
pointers, in the Windows branch below 2^31); the other threads pop the node at P and push a new
node that is allocated at P again, so that head is P once more.  If A is a pop, its `Cas2` on
head with the snapshot fails and changes nothing, because `m_Pops` has moved on.  If A is a
push that has stored P in the `pNext` of its own node, its `Cas` on head succeeds and makes
A's node the head, with P as its successor. -/
theorem stack_aba_pop_fails_push_succeeds (windows : Bool) (s : LockfreeStack α)
    (out value : α) (h na : Node α) (a : Nat)
    (hhead : s.m_pHead ≠ 0) (hh : s.heap s.m_pHead = some h)
    (hH : s.m_pHead < 2 ^ 32) (hN : h.pNext < 2 ^ 32)
    (hw : windows = true → s.m_pHead < 2 ^ 31 ∧ h.pNext < 2 ^ 31)
    (ha0 : a ≠ 0) (hane : a ≠ s.m_pHead) (ha : s.heap a = some na) :
    (∃ s2 : LockfreeStack α,
      s.popSnapshot = some (s.m_pHead, s.m_Pops, h.pNext)
      ∧ s.popThenPush windows out value s.m_pHead = some s2
      ∧ s2.m_pHead = s.m_pHead
      ∧ s2.popCas windows (s.m_pHead, s.m_Pops, h.pNext) = (false, s2))
    ∧ (∃ sA s2 s3 : LockfreeStack α,
      s.pushSnapshot a = some sA
      ∧ sA.popThenPush windows out value s.m_pHead = some s2
      ∧ s2.m_pHead = s.m_pHead
      ∧ s2.pushCas a = some (true, s3)
      ∧ s3.m_pHead = a
      ∧ s3.heap a = some { na with pNext := s.m_pHead }) := by
  constructor
  · refine ⟨_, ?_, LockfreeStack.popThenPush_live windows s out value h hhead hh hH hN hw,
      rfl, ?_⟩
    · simp only [LockfreeStack.popSnapshot, deref_eq_of_ne_zero _ hhead, hh]
    · have hne : ¬ (s.m_pHead = s.m_pHead ∧ (s.m_Pops + 1) % 2 ^ 32 = s.m_Pops) :=
        fun e => succ_mod_ne _ e.2
      rw [LockfreeStack.popCas, LockfreeStack.cas2Head]
      dsimp only
      rw [Cas2_of_safe windows s.m_pHead ((s.m_Pops + 1) % 2 ^ 32) s.m_pHead s.m_Pops h.pNext
          ((s.m_Pops + 1) % 2 ^ 32) hH hH hN hw, if_neg hne]
  · have hsnap : s.pushSnapshot a = some
        { s with heap := store s.heap a { na with pNext := s.m_pHead } } := by
      simp only [LockfreeStack.pushSnapshot, deref_eq_of_ne_zero _ ha0, ha]
    have hhA : (store s.heap a { na with pNext := s.m_pHead }) s.m_pHead = some h := by
      simp only [store, if_neg (Ne.symm hane), hh]
    have hpp := LockfreeStack.popThenPush_live windows
      { s with heap := store s.heap a { na with pNext := s.m_pHead } } out value h hhead hhA
      hH hN hw
    refine ⟨_, _,
      { m_pHead := a, m_Pops := (s.m_Pops + 1) % 2 ^ 32,
        heap := store (store (free (store s.heap a { na with pNext := s.m_pHead }) s.m_pHead)
          s.m_pHead { Value := value, pNext := 0 }) s.m_pHead
          { Value := value, pNext := h.pNext } },
      hsnap, hpp, rfl, ?_, rfl, ?_⟩
    · simp only [LockfreeStack.pushCas, deref, if_neg ha0, store, free, if_neg hane,
        if_true, Cas]
    · simp only [store, free, if_neg hane, if_true]

/-- The amended C13 applied to the two-node stack with thread A's node at 32, in the Windows
branch. -/
theorem stack_aba_pop_fails_push_succeeds_witness :
    stackTwoWithNode.m_pHead ≠ 0
    ∧ stackTwoWithNode.heap stackTwoWithNode.m_pHead = some { Value := 1, pNext := 16 }
    ∧ stackTwoWithNode.heap 32 = some { Value := 7, pNext := 0 }
    ∧ (∃ s2 : LockfreeStack Nat,
      stackTwoWithNode.popSnapshot = some (stackTwoWithNode.m_pHead, stackTwoWithNode.m_Pops, 16)
      ∧ stackTwoWithNode.popThenPush true 0 9 stackTwoWithNode.m_pHead = some s2
      ∧ s2.m_pHead = stackTwoWithNode.m_pHead
      ∧ s2.popCas true (stackTwoWithNode.m_pHead, stackTwoWithNode.m_Pops, 16) = (false, s2))
    ∧ (∃ sA s2 s3 : LockfreeStack Nat,
      stackTwoWithNode.pushSnapshot 32 = some sA
      ∧ sA.popThenPush true 0 9 stackTwoWithNode.m_pHead = some s2
      ∧ s2.m_pHead = stackTwoWithNode.m_pHead
      ∧ s2.pushCas 32 = some (true, s3)
      ∧ s3.m_pHead = 32
      ∧ s3.heap 32 = some { Value := 7, pNext := stackTwoWithNode.m_pHead }) :=
  ⟨by decide, rfl, rfl,
    stack_aba_pop_fails_push_succeeds true stackTwoWithNode 0 9 { Value := 1, pNext := 16 }
      { Value := 7, pNext := 0 } 32 (by decide) rfl (by decide) (by decide)
      (fun _ => ⟨by decide, by decide⟩) (by decide) (by decide) rfl⟩

/-! ## What a successful pop does to the unlinked node -/

/-- A stack pop that returns true has freed the node head referenced on entry, and nothing
else. -/
theorem LockfreeStack.pop_true_frees (windows : Bool) (fuel : Nat) (s s' : LockfreeStack α)
    (value v : α) (hp : s.pop windows fuel value = Res.done (true, v, s')) :
    s.m_pHead ≠ 0 ∧ s'.heap s.m_pHead = none ∧ ∀ a, a ≠ s.m_pHead → s'.heap a = s.heap a := by
  induction fuel with
  | zero => exact Res.noConfusion hp
  | succ k ih =>
    unfold LockfreeStack.pop at hp
    dsimp only at hp
    split at hp
    · injection hp with hp
      injection hp with hb _
      exact Bool.noConfusion hb
    · rename_i hhead
      split at hp
      · exact Res.noConfusion hp
      · rename_i h hd
        split at hp
        · split at hp
          · exact Res.noConfusion hp
          · injection hp with hp
            injection hp with _ hp
            injection hp with _ hp
            subst hp
            refine ⟨hhead, ?_, ?_⟩
            · simp [free]
            · intro a ha
              simp [free, ha, LockfreeStack.cas2Head]
        · rename_i hfail
          rw [LockfreeStack.cas2Head_eq_of_fail windows s _ _ _ _ (by simpa using hfail)] at hp
          exact ih hp

/-- A failed `Cas2` on the queue head leaves the queue as it was. -/
theorem LockfreeQueue.cas2Head_unchanged_of_fail (windows : Bool) (q : LockfreeQueue α)
    (old1 old2 new1 new2 : Nat) (h : (q.cas2Head windows old1 old2 new1 new2).1 = false) :
    (q.cas2Head windows old1 old2 new1 new2).2 = q := by
  unfold LockfreeQueue.cas2Head Cas2 at *
  dsimp only at *
  split at h
  · exact absurd h (by simp)
  · rename_i hne
    simp only [if_neg hne]

/-- A pass through the loop of queue pop writes no node; when it goes round again `m_pHead` is
as before, and when it leaves the loop the local `pHead` is null or the head on entry. -/
theorem LockfreeQueue.popIter_frame (windows : Bool) (q q1 : LockfreeQueue α) (value v : α)
    (b : Option Nat) (h : q.popIter windows value = some (b, v, q1)) :
    q1.heap = q.heap ∧ (b = none → q1.m_pHead = q.m_pHead)
    ∧ (∀ p, b = some p → p = 0 ∨ p = q.m_pHead) := by
  unfold LockfreeQueue.popIter at h
  dsimp only at h
  split at h
  · exact Option.noConfusion h
  · split at h
    · injection h with h
      injection h with hb h
      injection h with _ h
      subst h; subst hb
      exact ⟨rfl, fun _ => rfl, fun p hp => Option.noConfusion hp⟩
    · split at h
      · split at h
        · injection h with h
          injection h with hb h
          injection h with _ h
          subst h; subst hb
          exact ⟨rfl, fun hn => Option.noConfusion hn,
            fun p hp => Or.inl (Option.some.inj hp).symm⟩
        · injection h with h
          injection h with hb h
          injection h with _ h
          subst h; subst hb
          exact ⟨rfl, fun _ => rfl, fun p hp => Option.noConfusion hp⟩
      · split at h
        · split at h
          · exact Option.noConfusion h
          · split at h
            · injection h with h
              injection h with hb h
              injection h with _ h
              subst h; subst hb
              exact ⟨rfl, fun hn => Option.noConfusion hn,
                fun p hp => Or.inr (Option.some.inj hp).symm⟩
            · rename_i hfail
              injection h with h
              injection h with hb h
              injection h with _ h
              subst h; subst hb
              rw [LockfreeQueue.cas2Head_unchanged_of_fail windows q _ _ _ _ (by simpa using hfail)]
              exact ⟨rfl, fun _ => rfl, fun p hp => Option.noConfusion hp⟩
        · injection h with h
          injection h with hb h
          injection h with _ h
          subst h; subst hb
          exact ⟨rfl, fun _ => rfl, fun p hp => Option.noConfusion hp⟩

/-- The loop of queue pop writes no node, and leaves with the local `pHead` null or equal to the
head on entry. -/
theorem LockfreeQueue.popLoop_frame (windows : Bool) (fuel : Nat) :
    ∀ (q q1 : LockfreeQueue α) (value v : α) (p : Nat),
      LockfreeQueue.popLoop windows fuel q value = Res.done (p, v, q1) →
      q1.heap = q.heap ∧ (p = 0 ∨ p = q.m_pHead) := by
  induction fuel with
  | zero => intro q q1 value v p h; exact Res.noConfusion h
  | succ k ih =>
    intro q q1 value v p h
    unfold LockfreeQueue.popLoop at h
    split at h
    · exact Res.noConfusion h
    · rename_i pHead v1 q2 hi
      injection h with h
      injection h with hp h
      injection h with _ h
      subst h; subst hp
      have hf := LockfreeQueue.popIter_frame windows q _ value _ (some _) hi
      exact ⟨hf.1, hf.2.2 _ rfl⟩
    · rename_i v1 q2 hi
      have hf := LockfreeQueue.popIter_frame windows q q2 value v1 none hi
      have h2 := ih q2 q1 v1 v p h
      exact ⟨h2.1.trans hf.1, by rw [← hf.2.1 rfl]; exact h2.2⟩

/-- A queue pop that returns true has freed the node head referenced on entry, and nothing
else. -/
theorem LockfreeQueue.pop_true_frees_head (windows : Bool) (fuel : Nat) (q q' : LockfreeQueue α)
    (value v : α) (hp : q.pop windows fuel value = Res.done (true, v, q')) :
    q.m_pHead ≠ 0 ∧ q'.heap q.m_pHead = none ∧ ∀ a, a ≠ q.m_pHead → q'.heap a = q.heap a := by
  unfold LockfreeQueue.pop at hp
  split at hp
  · rename_i pHead v1 q1 hl
    have hf := LockfreeQueue.popLoop_frame windows fuel q q1 value v1 pHead hl
    split at hp
    · rename_i hne
      injection hp with hp
      injection hp with _ hp
      injection hp with _ hp
      subst hp
      have hpe : pHead = q.m_pHead := hf.2.resolve_left hne
      subst hpe
      refine ⟨hne, ?_, ?_⟩
      · simp [free]
      · intro a ha
        simp [free, ha, hf.1]
    · injection hp with hp
      injection hp with hb _
      exact Bool.noConfusion hb
  · exact Res.noConfusion hp
  · exact Res.noConfusion hp

/-- C14 as stated fails on the code: after a successful pop of the two-node stack, and after a
successful pop of a queue, the node that was unlinked (address 8) is no longer allocated, while
the rest of the chain is. -/
theorem pop_frees_unlinked_node_counterexample :
    (stackTwo.pop true 1 0).map (fun r => (r.1, r.2.1, r.2.2.view [8, 16]))
      = Res.done (true, 1, 16, 1, [none, some (2, 0)])
    ∧ (queueTailIsPops.pop true 1 0).map (fun r => (r.1, r.2.1, r.2.2.view [8, 16]))
      = Res.done (true, 1, 16, 17, 16, 0, [none, some (1, 0)]) :=
  ⟨rfl, rfl⟩

/-- C14 as amended: a pop that returns success, on the stack or on the queue, has itself freed
the node it unlinked (the node head referenced on entry): in the state right after the return
that address holds no live node, and every other address holds what it held before. -/
theorem pop_success_frees_unlinked_node (windows : Bool) (fuel : Nat) (s s' : LockfreeStack α)
    (q q' : LockfreeQueue α) (value v : α) :
    (s.pop windows fuel value = Res.done (true, v, s') →
      s.m_pHead ≠ 0 ∧ s'.heap s.m_pHead = none ∧ ∀ a, a ≠ s.m_pHead → s'.heap a = s.heap a)
    ∧ (q.pop windows fuel value = Res.done (true, v, q') →
      q.m_pHead ≠ 0 ∧ q'.heap q.m_pHead = none ∧ ∀ a, a ≠ q.m_pHead → q'.heap a = q.heap a) :=
  ⟨LockfreeStack.pop_true_frees windows fuel s s' value v,
    LockfreeQueue.pop_true_frees_head windows fuel q q' value v⟩

/-- The amended C14 applied to a successful pop of the two-node stack and a successful pop of
the queue state with `m_Pops = m_pTail`. -/
theorem pop_success_frees_unlinked_node_witness :
    stackTwo.pop false 1 0
        = Res.done (true, 1, { m_pHead := 16, m_Pops := 1, heap := free stackTwo.heap 8 })
    ∧ queueTailIsPops.pop false 1 0
        = Res.done (true, 1, { m_pHead := 16, m_pTail := 17, m_Pops := 16, m_Pushes := 0,
                               heap := free queueTailIsPops.heap 8 })
    ∧ (stackTwo.m_pHead ≠ 0 ∧ free stackTwo.heap 8 stackTwo.m_pHead = none
        ∧ ∀ a, a ≠ stackTwo.m_pHead → free stackTwo.heap 8 a = stackTwo.heap a)
    ∧ (queueTailIsPops.m_pHead ≠ 0 ∧ free queueTailIsPops.heap 8 queueTailIsPops.m_pHead = none
        ∧ ∀ a, a ≠ queueTailIsPops.m_pHead →
            free queueTailIsPops.heap 8 a = queueTailIsPops.heap a) :=
  ⟨rfl, rfl,
    (pop_success_frees_unlinked_node false 1 stackTwo
      { m_pHead := 16, m_Pops := 1, heap := free stackTwo.heap 8 } queueTailIsPops
      { m_pHead := 16, m_pTail := 17, m_Pops := 16, m_Pushes := 0,
        heap := free queueTailIsPops.heap 8 } 0 1).1 rfl,
    (pop_success_frees_unlinked_node false 1 stackTwo
      { m_pHead := 16, m_Pops := 1, heap := free stackTwo.heap 8 } queueTailIsPops
      { m_pHead := 16, m_pTail := 17, m_Pops := 16, m_Pushes := 0,
        heap := free queueTailIsPops.heap 8 } 0 1).2 rfl⟩

/-! ## Chains, lagging tails, termination, layout -/

/-- A node whose `pNext` is its own address starts a chain that never reaches null. -/
theorem chainLength_self_loop (h : Heap α) (p : Nat) (n : Node α) (hp : p ≠ 0)
    (hn : h p = some n) (hloop : n.pNext = p) (fuel : Nat) : chainLength h fuel p = none := by
  induction fuel with
  | zero => simp [chainLength, hp]
  | succ k ih =>
    unfold chainLength
    simp only [if_neg hp, deref_eq_of_ne_zero _ hp, hn, hloop, ih, Option.map_none']

/-- C17 (stack chain invariant), evaluated on the code for push(1) on a freshly constructed
stack with the new node at address 8.  After the first pass through push's loop the chain from
head has one node; the loop goes round again, and after the second pass the state, reached
without any interleaving, has head at 8 and the node at 8 with `pNext` = 8, its own address:
the chain from head never reaches null. -/
theorem stack_push_reaches_self_loop :
    (stackFreshNode.pushIter 8).map
        (fun r => (r.1, r.2.m_pHead, chainLength r.2.heap 4 r.2.m_pHead)) = some (false, 8, some 1)
    ∧ ∃ s : LockfreeStack Nat,
      (stackFreshNode.pushIter 8).bind (fun r => r.2.pushIter 8) = some (false, s)
      ∧ s.m_pHead = 8
      ∧ s.heap 8 = some { Value := 1, pNext := 8 }
      ∧ ∀ fuel, chainLength s.heap fuel s.m_pHead = none :=
  ⟨rfl, _, rfl, rfl, rfl,
    fun fuel => chainLength_self_loop _ 8 { Value := 1, pNext := 8 } (by decide) rfl rfl fuel⟩

/-- On a queue state with head different from tail, a live successor of the head node, and
`m_pTail` different from `m_Pops`, the loop of pop never ends. -/
theorem LockfreeQueue.popLoop_nonempty_timeout (windows : Bool) (q : LockfreeQueue α)
    (h n : Node α) (hh : q.m_pHead ≠ 0) (hne : q.m_pHead ≠ q.m_pTail)
    (hhd : q.heap q.m_pHead = some h) (hnx : h.pNext ≠ 0) (hn : q.heap h.pNext = some n)
    (hH : q.m_pHead < 2 ^ 32) (hw : windows = true → q.m_pHead < 2 ^ 31)
    (hd : q.m_pTail ≠ q.m_Pops) (fuel : Nat) (value : α) :
    LockfreeQueue.popLoop windows fuel q value = Res.timeout := by
  have hi : ∀ v, q.popIter windows v = some (none, n.Value, q) := by
    intro v
    simp only [LockfreeQueue.popIter, deref_eq_of_ne_zero _ hh, hhd, ne_eq, not_true,
      if_false, if_neg hne, hnx, not_false_eq_true, if_true, deref_eq_of_ne_zero _ hnx, hn,
      LockfreeQueue.cas2Head_fail windows q _ _ _ hH hw hd]
    simp
  exact LockfreeQueue.popLoop_stuck windows q (fun _ => n.Value) hi fuel value

/-- C18 (pop helps a lagging tail), evaluated on the code.  On the state sentinel 8 → 16
(value 1) with head = tail = 8 and both counters 0, the first pass through pop's loop moves
tail to 16, writing the incremented counter into `m_Pops`, and goes round again.  From then on
the `Cas2` on `&m_pHead` compares the pair (`m_pHead`, `m_pTail`) = (8, 16) with
(8, `m_Pops`) = (8, 1) and fails on every pass: pop never returns, head stays at 8. -/
theorem queue_pop_lagging_tail_never_returns (windows : Bool) (fuel : Nat) (value : Nat) :
    (queueLagging.popIter windows value).map (fun r => (r.1, r.2.1, r.2.2.view [8, 16]))
      = some (none, value, 8, 16, 1, 0, [some (0, 16), some (1, 0)])
    ∧ queueLagging.pop windows fuel value = Res.timeout := by
  constructor
  · cases windows <;> rfl
  · cases fuel with
    | zero => rfl
    | succ k =>
      have hi : queueLagging.popIter windows value = some (none, value, queueOne) := by
        cases windows <;> rfl
      unfold LockfreeQueue.pop LockfreeQueue.popLoop
      rw [hi]
      dsimp only
      rw [LockfreeQueue.popLoop_nonempty_timeout windows queueOne { Value := 0, pNext := 16 }
        { Value := 1, pNext := 0 } (by decide) (by decide) rfl (by decide) rfl (by decide)
        (fun _ => by decide) (by decide) k value]

/-- C19 (pop terminates on well-formed states), evaluated on the code.  The state sentinel
8 → 16 → 24 with head 8, tail 16 one node behind the last, `m_Pops = 1`, `m_Pushes = 0` is
well-formed.  A pass through pop's loop on it changes no member and no node and goes round
again; the loop is still running after two passes, and after any number of them. -/
theorem queue_pop_well_formed_never_ends (windows : Bool) (fuel : Nat) (value : Nat) :
    queueTwo.wellFormed 1 = true
    ∧ (queueTwo.popIter windows value).map (fun r => (r.1, r.2.2.view [8, 16, 24]))
        = some (none, queueTwo.view [8, 16, 24])
    ∧ LockfreeQueue.popLoop windows 2 queueTwo value = Res.timeout
    ∧ queueTwo.pop windows fuel value = Res.timeout := by
  have hl := LockfreeQueue.popLoop_nonempty_timeout windows queueTwo { Value := 0, pNext := 16 }
    { Value := 1, pNext := 24 } (by decide) (by decide) rfl (by decide) rfl (by decide)
    (fun _ => by decide) (by decide)
  refine ⟨by decide, ?_, hl 2 value, ?_⟩
  · cases windows <;> rfl
  · unfold LockfreeQueue.pop
    rw [hl fuel value]

/-- C20 (each Cas2 pairs a pointer with its own counter), evaluated on the code.  By the
declared order of the members, the word after `m_pHead` is `m_Pops` in the stack, but in the
queue the word after `m_pHead` is `m_pTail` and the word after `m_pTail` is `m_Pops`; the
`Cas2` calls of the embedding are the calls the layout gives.  On the queue state with
`m_pHead = 8`, `m_pTail = 16`, `m_Pops = 16`, the `Cas2` on `&m_pHead` with the snapshot
(8, `m_Pops`) succeeds and overwrites the pointer member `m_pTail` with 17. -/
theorem cas2_pairs_pointer_with_next_member (windows : Bool) (s : LockfreeStack α)
    (q : LockfreeQueue α) (old1 old2 new1 new2 : Nat) :
    fieldAfter StackField.layout StackField.m_pHead = some StackField.m_Pops
    ∧ fieldAfter QueueField.layout QueueField.m_pHead = some QueueField.m_pTail
    ∧ fieldAfter QueueField.layout QueueField.m_pTail = some QueueField.m_Pops
    ∧ s.cas2At windows StackField.m_pHead old1 old2 new1 new2
        = some (s.cas2Head windows old1 old2 new1 new2)
    ∧ q.cas2At windows QueueField.m_pHead old1 old2 new1 new2
        = some (q.cas2Head windows old1 old2 new1 new2)
    ∧ q.cas2At windows QueueField.m_pTail old1 old2 new1 new2
        = some (q.cas2Tail windows old1 old2 new1 new2)
    ∧ (queueTailIsPops.cas2Head windows queueTailIsPops.m_pHead queueTailIsPops.m_Pops 16
          ((queueTailIsPops.m_Pops + 1) % 2 ^ 32)).1 = true
    ∧ (queueTailIsPops.cas2Head windows queueTailIsPops.m_pHead queueTailIsPops.m_Pops 16
          ((queueTailIsPops.m_Pops + 1) % 2 ^ 32)).2.view []
        = (16, 17, 16, 0, []) := by
  refine ⟨by decide, by decide, by decide, rfl, rfl, rfl, ?_, ?_⟩
  · cases windows <;> rfl
  · cases windows <;> rfl

/-! ## A push that returns without linking its node -/

/-- No sequential run of calls that contains a push whose allocation succeeds ever returns. -/
theorem LockfreeStack.run_ne_done_of_push (windows : Bool) (fuel : Nat) (value : α) (node : Nat)
    (hn : node ≠ 0) (post : List (StackOp α)) :
    ∀ (pre : List (StackOp α)) (s : LockfreeStack α)
      (r : List (Bool × Option α) × LockfreeStack α),
      LockfreeStack.run windows fuel (pre ++ StackOp.push value node :: post) s ≠ Res.done r := by
  intro pre
  induction pre with
  | nil =>
    intro s r h
    rw [List.nil_append, LockfreeStack.run_push_timeout windows fuel s value node post hn] at h
    exact Res.noConfusion h
  | cons op pre ih =>
    intro s r h
    rw [List.cons_append] at h
    cases op with
    | push v n =>
      unfold LockfreeStack.run at h
      split at h
      · rename_i b s1 _
        split at h
        · rename_i rs s2 h2
          exact ih s1 (rs, s2) h2
        · exact Res.noConfusion h
        · exact Res.noConfusion h
      · exact Res.noConfusion h
      · exact Res.noConfusion h
    | pop v =>
      unfold LockfreeStack.run at h
      split at h
      · rename_i b v1 s1 _
        split at h
        · rename_i rs s2 h2
          exact ih s1 (rs, s2) h2
        · exact Res.noConfusion h
        · exact Res.noConfusion h
      · exact Res.noConfusion h
      · exact Res.noConfusion h

/-- C15 (linearizability), refuted on the code by one schedule of two threads on a freshly
constructed stack.  Thread A runs push(1) up to line 145, thread B runs one pass of push(2) and
is suspended, then A's `Cas` fails: A takes `break` and returns true, with head at B's node 16
and A's node 8 linked nowhere.  A's three pops then return 2, Empty, Empty.  No total order
reproduces these results: a sequential run of the code that contains A's push never returns at
all, and the reference LIFO stack, run on A's calls in program order with B's push left out or
put at any place, never gives A's results. -/
theorem stack_lost_push_not_linearizable (windows : Bool) (fuel : Nat)
    (pre post : List (StackOp Nat)) (s : LockfreeStack Nat)
    (r : List (Bool × Option Nat) × LockfreeStack Nat) :
    lostPushSchedule.map (fun x => (x.1, x.2.1, x.2.2.view [8, 16]))
      = some (true, false, 16, 0, [some (1, 0), some (2, 0)])
    ∧ lostPushSchedule.map (fun x =>
          (LockfreeStack.run windows 1 [StackOp.pop 0, StackOp.pop 0, StackOp.pop 0] x.2.2).map
            (fun y => (y.1, y.2.view [8, 16])))
        = some (Res.done ([(true, some 2), (false, some 0), (false, some 0)],
            0, 1, [some (1, 0), none]))
    ∧ LockfreeStack.run windows fuel (pre ++ StackOp.push 1 8 :: post) s ≠ Res.done r
    ∧ specStackRun threadA []
        ≠ [(true, none), (true, some 2), (false, some 0), (false, some 0)]
    ∧ (List.range 5).all (fun k => decide
        ((specStackRun (List.insertIdx k (StackOp.push 2 16) threadA) []).eraseIdx k
          ≠ [(true, none), (true, some 2), (false, some 0), (false, some 0)])) = true := by
  refine ⟨rfl, ?_, LockfreeStack.run_ne_done_of_push windows fuel 1 8 (by decide) post pre s r,
    by decide, by decide⟩
  cases windows <;> rfl

end Lockfree
